import Mathlib

/-!
Shallow embedding of `src/app.py` (a Flask CRUD service over an in-memory
task list) and proofs about its handlers.

Modelling conventions:
* A task dict `{"id": ..., "title": ..., "done": ...}` becomes the `Task`
  structure; the module-level `tasks` list becomes a `List Task` threaded
  explicitly through each handler (each handler returns its HTTP response
  together with the new store).
* JSON values are modelled by the `Json` inductive; JSON numbers are
  modelled as integers (no claim involves fractional numbers).
* The request body, as the handlers observe it through Flask, is modelled by
  `Body`: either the content type is not JSON (`request.is_json` is false),
  or it is JSON but the body fails to parse (`request.get_json(silent=True)`
  returns `None`), or it parses to a JSON value.
* Python expressions `key in data` and `data[key]` raise `TypeError` when
  `data` is not a container; those paths are modelled by `Option`, with
  `none` meaning an uncaught Python exception, and a handler outcome
  `HResult.pyError` for a request that would crash the handler.
* `str.strip()` is modelled by `pyStrip` (drop leading and trailing
  whitespace characters).
* Python dicts produced by the JSON parser have unique keys; object field
  lists are accessed only through first-match lookup, which agrees with
  dict lookup on any duplicate-free field list.
-/

namespace App

/-- A JSON value, as produced by Flask's request parsing. -/
inductive Json where
  | null
  | bool (b : Bool)
  | num (n : Int)
  | str (s : String)
  | arr (elems : List Json)
  | obj (fields : List (String × Json))

/-- A task record `{"id": int, "title": str, "done": bool}`. -/
structure Task where
  id : Nat
  title : String
  done : Bool
deriving Repr, DecidableEq

/-- An HTTP response: status code plus JSON body (`jsonify(x), code`;
a bare `jsonify(x)` is status 200). -/
structure Response where
  status : Nat
  body : Json

/-- The request body as the handler observes it through Flask. -/
inductive Body where
  /-- The content type is not JSON: `request.is_json` is false. -/
  | notJson
  /-- JSON content type, but the body fails to parse:
  `request.get_json(silent=True)` returns `None`. -/
  | badJson
  /-- The body parses to the JSON value `v`. -/
  | json (v : Json)

/-- Outcome of running a handler: an HTTP response, or an uncaught Python
exception (`TypeError` from `in`/subscript on a non-container). -/
inductive HResult where
  | resp (r : Response)
  | pyError

/-- Python truthiness of a JSON value (`None`, `False`, `0`, `""`, `[]`,
`{}` are falsy). -/
def Json.truthy : Json → Bool
  | .null => false
  | .bool b => b
  | .num n => n != 0
  | .str s => s != ""
  | .arr xs => !xs.isEmpty
  | .obj fs => !fs.isEmpty

/-- Python `data = request.get_json(silent=True) or {}`: a missing or falsy parse
result is replaced by the empty dict. (Handlers only evaluate this after
the `request.is_json` guard, so the `notJson` case is unreachable there.) -/
def parsedOrEmpty : Body → Json
  | .notJson => .obj []
  | .badJson => .obj []
  | .json v => if v.truthy then v else .obj []

/-- Whether a list of characters contains `pat` as a contiguous run
(Python `pat in s` for strings). -/
def charsContain (s pat : List Char) : Bool :=
  (List.range (s.length + 1)).any (fun i => pat.isPrefixOf (s.drop i))

/-- Python `x == "k"` for a JSON value `x`: true exactly for the equal
string (a Python `str` compares unequal to every non-`str` JSON value). -/
def Json.eqStr (k : String) : Json → Bool
  | .str s => s == k
  | _ => false

/-- Python `k in data`. `some b` is the boolean result; `none` means
`TypeError` (membership test on `None`, a bool, or a number). -/
def Json.hasKey : Json → String → Option Bool
  | .obj fs, k => some (fs.any (fun p => p.1 == k))
  | .arr xs, k => some (xs.any (Json.eqStr k))
  | .str s, k => some (charsContain s.toList k.toList)
  | _, _ => none

/-- Python `data[k]` for a string key `k`. `none` means an exception:
`TypeError` unless `data` is a dict, `KeyError` if the key is absent. -/
def Json.item : Json → String → Option Json
  | .obj fs, k => (fs.find? (fun p => p.1 == k)).map Prod.snd
  | _, _ => none

/-- Drop leading and trailing whitespace characters. -/
def stripChars (l : List Char) : List Char :=
  (((l.dropWhile Char.isWhitespace).reverse).dropWhile Char.isWhitespace).reverse

/-- Python `s.strip()`. -/
def pyStrip (s : String) : String :=
  String.mk (stripChars s.data)

/-- JSON encoding of a task, `{"id": ..., "title": ..., "done": ...}`. -/
def Task.toJson (t : Task) : Json :=
  .obj [("id", .num (t.id : Int)), ("title", .str t.title), ("done", .bool t.done)]

/-- The object `{"error": msg}`. -/
def errObj (msg : String) : Json := .obj [("error", .str msg)]

/-- The object `{"message": msg}`. -/
def msgObj (msg : String) : Json := .obj [("message", .str msg)]

/-- The seed store:
`tasks = [{"id": 1, "title": "Купить молоко", "done": False},
{"id": 2, "title": "Выучить Python", "done": True}]`. -/
def tasks : List Task :=
  [⟨1, "Купить молоко", false⟩, ⟨2, "Выучить Python", true⟩]

/-- Source `generate_id`: `max(task['id'] for task in tasks) + 1 if tasks else 1`. -/
def generate_id (ts : List Task) : Nat :=
  if ts.isEmpty then 1 else (ts.map Task.id).foldl Nat.max 0 + 1

/-- Handler for `GET /tasks`: `return jsonify(tasks)`. -/
def get_tasks (ts : List Task) : Response :=
  ⟨200, .arr (ts.map Task.toJson)⟩

/-- Handler for `GET /tasks/<int:task_id>`: first task with matching id, else 404.
(`next((task for task in tasks if task['id'] == task_id), None)`; the
`if not task` guard fires exactly when `next` returned `None`, since a
task dict is non-empty and hence truthy.) -/
def get_task (ts : List Task) (task_id : Nat) : Response :=
  match ts.find? (fun t => t.id == task_id) with
  | none => ⟨404, errObj "Задача не найдена"⟩
  | some t => ⟨200, t.toJson⟩

/-- The create-side validation and field access:
`'title' not in data or not isinstance(data['title'], str) or not
data['title'].strip()` rejects with 400; otherwise the validated title
string is returned. `none` propagates a Python `TypeError`. -/
def titleOfData (data : Json) : Option (Except Unit String) :=
  match data.hasKey "title" with
  | none => none
  | some false => some (.error ())
  | some true =>
    match data.item "title" with
    | none => none
    | some (.str s) =>
        if pyStrip s == "" then some (.error ()) else some (.ok s)
    | some _ => some (.error ())

/-- Handler for `POST /tasks` (`create_task`): 415 unless the content type is JSON,
400 unless `data['title']` is a string that is non-empty after stripping,
else append `{"id": generate_id(), "title": data['title'].strip(),
"done": False}` and answer 201 with the new task. -/
def create_task (ts : List Task) (body : Body) : HResult × List Task :=
  match body with
  | .notJson => (.resp ⟨415, errObj "Request must be JSON"⟩, ts)
  | _ =>
    let data := parsedOrEmpty body
    match titleOfData data with
    | none => (.pyError, ts)
    | some (.error ()) =>
        (.resp ⟨400, errObj "Title is required and must be non-empty string"⟩, ts)
    | some (.ok s) =>
        let new_task : Task := ⟨generate_id ts, pyStrip s, false⟩
        (.resp ⟨201, new_task.toJson⟩, ts ++ [new_task])

/-- Source `if 'title' in data and isinstance(data['title'], str) and
data['title'].strip(): task['title'] = data['title'].strip()`.
`none` propagates a Python `TypeError`. -/
def applyTitle (data : Json) (t : Task) : Option Task :=
  match data.hasKey "title" with
  | none => none
  | some false => some t
  | some true =>
    match data.item "title" with
    | none => none
    | some (.str s) =>
        some (if pyStrip s == "" then t else { t with title := pyStrip s })
    | some _ => some t

/-- Source `if 'done' in data and isinstance(data['done'], bool):
task['done'] = data['done']`. `none` propagates a Python `TypeError`. -/
def applyDone (data : Json) (t : Task) : Option Task :=
  match data.hasKey "done" with
  | none => none
  | some false => some t
  | some true =>
    match data.item "done" with
    | none => none
    | some (.bool b) => some { t with done := b }
    | some _ => some t

/-- Mutating the found task dict in place: the first list entry whose id
matches is replaced (task dicts are created fresh, so no aliasing). -/
def replaceFirst (ts : List Task) (task_id : Nat) (t2 : Task) : List Task :=
  match ts with
  | [] => []
  | t :: rest =>
      if t.id == task_id then t2 :: rest else t :: replaceFirst rest task_id t2

/-- Handler for `PUT /tasks/<int:task_id>` (`update_task`): 404 if no task has the id
(checked before anything else), then 415 unless the content type is JSON,
then partial update of `title` and `done` and answer 200 with the task.
In the source a `TypeError` can only be raised before any field is
assigned (subscripting a non-dict raises before assignment, and `title`
is only ever assigned when `data` is a dict, in which case the later
`'done' in data` cannot raise), so on `pyError` the store is unchanged. -/
def update_task (ts : List Task) (task_id : Nat) (body : Body) :
    HResult × List Task :=
  match ts.find? (fun t => t.id == task_id) with
  | none => (.resp ⟨404, errObj "Задача не найдена"⟩, ts)
  | some task =>
    match body with
    | .notJson => (.resp ⟨415, errObj "Request must be JSON"⟩, ts)
    | _ =>
      let data := parsedOrEmpty body
      match applyTitle data task with
      | none => (.pyError, ts)
      | some task1 =>
        match applyDone data task1 with
        | none => (.pyError, ts)
        | some task2 =>
            (.resp ⟨200, task2.toJson⟩, replaceFirst ts task_id task2)

/-- Handler for `DELETE /tasks/<int:task_id>` (`delete_task`): filter out every task
with the id; 404 if the length did not change (in which case the filtered
list equals the original), else 200 with a confirmation message. -/
def delete_task (ts : List Task) (task_id : Nat) : Response × List Task :=
  let ts2 := ts.filter (fun t => t.id != task_id)
  if ts2.length == ts.length then (⟨404, errObj "Задача не найдена"⟩, ts2)
  else (⟨200, msgObj "Задача удалена"⟩, ts2)

/-- The title the spec prescribes after a partial update with parsed object
fields `fs`: a supplied title that is a string and non-empty after
stripping replaces the old title; anything else leaves it unchanged. -/
def titleAfter (fs : List (String × Json)) (t : Task) : String :=
  match (fs.find? (fun p => p.1 == "title")).map Prod.snd with
  | some (.str s) => if pyStrip s = "" then t.title else pyStrip s
  | _ => t.title

/-- The done flag the spec prescribes after a partial update with parsed
object fields `fs`: a supplied boolean replaces the old flag; anything
else leaves it unchanged. -/
def doneAfter (fs : List (String × Json)) (t : Task) : Bool :=
  match (fs.find? (fun p => p.1 == "done")).map Prod.snd with
  | some (.bool b) => b
  | _ => t.done

/-- One inbound request against the store: which handler runs, with which
path parameter and body. -/
inductive Op where
  | list
  | get (task_id : Nat)
  | create (body : Body)
  | update (task_id : Nat) (body : Body)
  | delete (task_id : Nat)

/-- The store after serving one request (`GET` handlers never write the
global `tasks`). -/
def applyOp (ts : List Task) : Op → List Task
  | .list => ts
  | .get _ => ts
  | .create b => (create_task ts b).2
  | .update i b => (update_task ts i b).2
  | .delete i => (delete_task ts i).2

/-- The store after serving a sequence of requests. -/
def runOps (ts : List Task) (ops : List Op) : List Task :=
  ops.foldl applyOp ts

/-- The store invariants: all ids pairwise distinct, and every stored
title contains a non-whitespace character (equivalently, is neither empty
nor whitespace-only). -/
def Inv (ts : List Task) : Prop :=
  (ts.map Task.id).Nodup ∧ ∀ t ∈ ts, ∃ c ∈ t.title.data, c.isWhitespace = false

/-! ### Helper lemmas -/

theorem parsedOrEmpty_obj (fs : List (String × Json)) :
    parsedOrEmpty (.json (.obj fs)) = .obj fs := by
  cases fs with
  | nil => rfl
  | cons a l => rfl

theorem foldl_max_le (l : List Nat) (a : Nat) :
    a ≤ l.foldl Nat.max a ∧ ∀ x ∈ l, x ≤ l.foldl Nat.max a := by
  induction l generalizing a with
  | nil => exact ⟨Nat.le_refl a, by simp⟩
  | cons b t ih =>
    obtain ⟨h1, h2⟩ := ih (Nat.max a b)
    simp only [List.foldl_cons]
    refine ⟨Nat.le_trans (Nat.le_max_left a b) h1, ?_⟩
    intro x hx
    rcases List.mem_cons.mp hx with h | h
    · exact Nat.le_trans (Nat.le_of_eq h)
        (Nat.le_trans (Nat.le_max_right a b) h1)
    · exact h2 x h

theorem foldl_max_mem (l : List Nat) (a : Nat) :
    l.foldl Nat.max a = a ∨ l.foldl Nat.max a ∈ l := by
  induction l generalizing a with
  | nil => exact Or.inl rfl
  | cons b t ih =>
    simp only [List.foldl_cons]
    rcases ih (Nat.max a b) with h | h
    · rcases Nat.le_total b a with hba | hab
      · exact Or.inl (h.trans (Nat.max_eq_left hba))
      · refine Or.inr ?_
        rw [show List.foldl Nat.max (Nat.max a b) t = b from
          h.trans (Nat.max_eq_right hab)]
        exact List.mem_cons_self b t
    · exact Or.inr (List.mem_cons_of_mem b h)

theorem generate_id_cons (a : Task) (t : List Task) :
    generate_id (a :: t) = ((a :: t).map Task.id).foldl Nat.max 0 + 1 := rfl

theorem generate_id_gt (ts : List Task) : ∀ t ∈ ts, t.id < generate_id ts := by
  intro t ht
  cases ts with
  | nil => cases ht
  | cons a l =>
    rw [generate_id_cons]
    have := (foldl_max_le (((a :: l).map Task.id)) 0).2 t.id
      (List.mem_map.mpr ⟨t, ht, rfl⟩)
    omega

theorem generate_id_max (ts : List Task) (h : ts ≠ []) :
    ∃ u ∈ ts, (∀ v ∈ ts, v.id ≤ u.id) ∧ generate_id ts = u.id + 1 := by
  cases ts with
  | nil => exact absurd rfl h
  | cons a l =>
    have hub := (foldl_max_le ((a :: l).map Task.id) 0).2
    have hmem : ((a :: l).map Task.id).foldl Nat.max 0 ∈ (a :: l).map Task.id := by
      rcases foldl_max_mem ((a :: l).map Task.id) 0 with h0 | h0
      · have ha := hub a.id (List.mem_map.mpr ⟨a, List.mem_cons_self a l, rfl⟩)
        rw [h0] at ha ⊢
        have : a.id = 0 := Nat.le_zero.mp ha
        exact List.mem_map.mpr ⟨a, List.mem_cons_self a l, this⟩
      · exact h0
    obtain ⟨u, hu, hid⟩ := List.mem_map.mp hmem
    refine ⟨u, hu, ?_, ?_⟩
    · intro v hv
      have := hub v.id (List.mem_map.mpr ⟨v, hv, rfl⟩)
      omega
    · rw [generate_id_cons, hid]

theorem replaceFirst_append (l1 : List Task) (t : Task) (l2 : List Task)
    (i : Nat) (t2 : Task) (h1 : ∀ u ∈ l1, (u.id == i) = false)
    (h2 : (t.id == i) = true) :
    replaceFirst (l1 ++ t :: l2) i t2 = l1 ++ t2 :: l2 := by
  induction l1 with
  | nil => simp [replaceFirst, h2]
  | cons a l ih =>
    have ha := h1 a (List.mem_cons_self a l)
    simp only [List.cons_append, replaceFirst, ha]
    simp only [Bool.false_eq_true, if_false, List.cons.injEq, true_and]
    exact ih (fun u hu => h1 u (List.mem_cons_of_mem a hu))

theorem hasKey_obj (fs : List (String × Json)) (k : String) :
    Json.hasKey (.obj fs) k = some (fs.any (fun p => p.1 == k)) := rfl

theorem item_obj (fs : List (String × Json)) (k : String) :
    Json.item (.obj fs) k = (fs.find? (fun p => p.1 == k)).map Prod.snd := rfl

theorem any_key_of_find? (fs : List (String × Json)) (k : String) (p : String × Json)
    (h : fs.find? (fun q => q.1 == k) = some p) :
    fs.any (fun q => q.1 == k) = true := by
  have hp := List.find?_some h
  exact List.any_eq_true.mpr ⟨p, List.mem_of_find?_eq_some h, hp⟩

theorem any_key_of_find?_none (fs : List (String × Json)) (k : String)
    (h : fs.find? (fun q => q.1 == k) = none) :
    fs.any (fun q => q.1 == k) = false :=
  List.any_eq_false.mpr (List.find?_eq_none.mp h)

theorem applyTitle_obj (fs : List (String × Json)) (t : Task) :
    applyTitle (.obj fs) t = some ⟨t.id, titleAfter fs t, t.done⟩ := by
  unfold applyTitle titleAfter
  rw [hasKey_obj, item_obj]
  cases hfind : fs.find? (fun p => p.1 == "title") with
  | none =>
    rw [any_key_of_find?_none fs "title" hfind]
    rfl
  | some p =>
    rw [any_key_of_find? fs "title" p hfind]
    obtain ⟨k, v⟩ := p
    cases v with
    | str s =>
      by_cases hps : pyStrip s = ""
      · simp [hps]
      · simp [hps]
    | null => rfl
    | bool b => rfl
    | num n => rfl
    | arr xs => rfl
    | obj gs => rfl

theorem applyDone_obj (fs : List (String × Json)) (t : Task) :
    applyDone (.obj fs) t = some ⟨t.id, t.title, doneAfter fs t⟩ := by
  unfold applyDone doneAfter
  rw [hasKey_obj, item_obj]
  cases hfind : fs.find? (fun p => p.1 == "done") with
  | none =>
    rw [any_key_of_find?_none fs "done" hfind]
    rfl
  | some p =>
    rw [any_key_of_find? fs "done" p hfind]
    obtain ⟨k, v⟩ := p
    cases v <;> rfl

theorem doneAfter_title (fs : List (String × Json)) (t : Task) (x : String) :
    doneAfter fs ⟨t.id, x, t.done⟩ = doneAfter fs t := by
  unfold doneAfter
  cases (fs.find? (fun p => p.1 == "done")).map Prod.snd with
  | none => rfl
  | some v => cases v <;> rfl

theorem titleAfter_nil (t : Task) : titleAfter [] t = t.title := rfl

theorem doneAfter_nil (t : Task) : doneAfter [] t = t.done := rfl

theorem update_obj_eq (ts : List Task) (i : Nat) (t : Task)
    (fs : List (String × Json)) (h : ts.find? (fun x => x.id == i) = some t) :
    update_task ts i (.json (.obj fs)) =
      (.resp ⟨200, Task.toJson ⟨t.id, titleAfter fs t, doneAfter fs t⟩⟩,
        replaceFirst ts i ⟨t.id, titleAfter fs t, doneAfter fs t⟩) := by
  unfold update_task
  rw [h]
  simp only [parsedOrEmpty_obj, applyTitle_obj, applyDone_obj, doneAfter_title]

theorem titleOfData_obj_some (fs : List (String × Json)) (s : String)
    (hfind : (fs.find? (fun p => p.1 == "title")).map Prod.snd = some (.str s))
    (hs : pyStrip s ≠ "") :
    titleOfData (.obj fs) = some (.ok s) := by
  unfold titleOfData
  rw [hasKey_obj, item_obj]
  obtain ⟨p, hp⟩ : ∃ p, fs.find? (fun q => q.1 == "title") = some p := by
    cases hf : fs.find? (fun q => q.1 == "title") with
    | none => rw [hf] at hfind; cases hfind
    | some p => exact ⟨p, rfl⟩
  rw [any_key_of_find? fs "title" p hp, hfind]
  simp [hs]

theorem titleOfData_obj_err (fs : List (String × Json))
    (h : match (fs.find? (fun p => p.1 == "title")).map Prod.snd with
         | some (Json.str s) => pyStrip s = ""
         | none => True
         | some _ => True) :
    titleOfData (.obj fs) = some (.error ()) := by
  unfold titleOfData
  rw [hasKey_obj, item_obj]
  cases hf : fs.find? (fun q => q.1 == "title") with
  | none =>
    rw [any_key_of_find?_none fs "title" hf]
  | some p =>
    rw [any_key_of_find? fs "title" p hf]
    rw [hf] at h
    obtain ⟨k, v⟩ := p
    cases v with
    | str s =>
      have hs : pyStrip s = "" := h
      simp [hs]
    | null => rfl
    | bool b => rfl
    | num n => rfl
    | arr xs => rfl
    | obj gs => rfl

theorem titleOfData_ok_strip (d : Json) (s : String)
    (h : titleOfData d = some (.ok s)) : pyStrip s ≠ "" := by
  unfold titleOfData at h
  cases hk : d.hasKey "title" with
  | none => rw [hk] at h; cases h
  | some b =>
    rw [hk] at h
    cases b with
    | false => cases h
    | true =>
      cases hi : d.item "title" with
      | none => rw [hi] at h; cases h
      | some v =>
        rw [hi] at h
        cases v with
        | str s2 =>
          by_cases hps : pyStrip s2 = ""
          · simp [hps] at h
          · simp [hps] at h
            exact h ▸ hps
        | null => simp at h
        | bool b2 => simp at h
        | num n => simp at h
        | arr xs => simp at h
        | obj gs => simp at h

theorem create_notJson (ts : List Task) :
    create_task ts .notJson = (.resp ⟨415, errObj "Request must be JSON"⟩, ts) :=
  rfl

theorem create_badJson (ts : List Task) :
    create_task ts .badJson =
      (.resp ⟨400, errObj "Title is required and must be non-empty string"⟩, ts) :=
  rfl

theorem create_obj_ok (ts : List Task) (fs : List (String × Json)) (s : String)
    (hfind : (fs.find? (fun p => p.1 == "title")).map Prod.snd = some (.str s))
    (hs : pyStrip s ≠ "") :
    create_task ts (.json (.obj fs)) =
      (.resp ⟨201, Task.toJson ⟨generate_id ts, pyStrip s, false⟩⟩,
        ts ++ [⟨generate_id ts, pyStrip s, false⟩]) := by
  unfold create_task
  simp only [parsedOrEmpty_obj, titleOfData_obj_some fs s hfind hs]

theorem create_obj_err (ts : List Task) (fs : List (String × Json))
    (h : match (fs.find? (fun p => p.1 == "title")).map Prod.snd with
         | some (Json.str s) => pyStrip s = ""
         | none => True
         | some _ => True) :
    create_task ts (.json (.obj fs)) =
      (.resp ⟨400, errObj "Title is required and must be non-empty string"⟩, ts) := by
  unfold create_task
  simp only [parsedOrEmpty_obj, titleOfData_obj_err fs h]

theorem dropWhile_head_false (p : Char → Bool) (l : List Char) :
    l.dropWhile p = [] ∨ ∃ c l2, l.dropWhile p = c :: l2 ∧ p c = false := by
  induction l with
  | nil => exact Or.inl rfl
  | cons a t ih =>
    by_cases hpa : p a = true
    · rw [List.dropWhile_cons, if_pos hpa]
      exact ih
    · right
      refine ⟨a, t, ?_, by simpa using hpa⟩
      rw [List.dropWhile_cons, if_neg hpa]

theorem stripChars_has_nonws (l : List Char) (h : stripChars l ≠ []) :
    ∃ c ∈ stripChars l, c.isWhitespace = false := by
  unfold stripChars at h ⊢
  rcases dropWhile_head_false Char.isWhitespace
      ((l.dropWhile Char.isWhitespace).reverse) with h0 | hc
  · rw [h0] at h
    simp at h
  · obtain ⟨c, l2, heq, hc⟩ := hc
    rw [heq]
    exact ⟨c, List.mem_reverse.mpr (List.mem_cons_self c l2), hc⟩

theorem pyStrip_data (s : String) : (pyStrip s).data = stripChars s.data := rfl

theorem pyStrip_ne_nil (s : String) (h : pyStrip s ≠ "") :
    stripChars s.data ≠ [] := by
  intro h0
  refine h (String.ext ?_)
  rw [pyStrip_data, h0]

theorem pyStrip_has_nonws (s : String) (h : pyStrip s ≠ "") :
    ∃ c ∈ (pyStrip s).data, c.isWhitespace = false := by
  rw [pyStrip_data]
  exact stripChars_has_nonws s.data (pyStrip_ne_nil s h)

theorem applyTitle_nil (t : Task) : applyTitle (.obj []) t = some t := rfl

theorem applyDone_nil (t : Task) : applyDone (.obj []) t = some t := rfl

theorem parsedOrEmpty_badJson : parsedOrEmpty .badJson = .obj [] := rfl

theorem replaceFirst_self (ts : List Task) (i : Nat) (t : Task)
    (h : ts.find? (fun x => x.id == i) = some t) :
    replaceFirst ts i t = ts := by
  obtain ⟨hpt, l1, l2, hts, hbefore⟩ := List.find?_eq_some.mp h
  subst hts
  exact replaceFirst_append l1 t l2 i t
    (fun u hu => by simpa using hbefore u hu) hpt

theorem update_notJson_eq (ts : List Task) (i : Nat) (t : Task)
    (h : ts.find? (fun x => x.id == i) = some t) :
    update_task ts i .notJson =
      (.resp ⟨415, errObj "Request must be JSON"⟩, ts) := by
  unfold update_task
  rw [h]

theorem update_badJson_eq (ts : List Task) (i : Nat) (t : Task)
    (h : ts.find? (fun x => x.id == i) = some t) :
    update_task ts i .badJson = (.resp ⟨200, t.toJson⟩, ts) := by
  unfold update_task
  rw [h]
  simp only [parsedOrEmpty_badJson, applyTitle_nil, applyDone_nil]
  rw [replaceFirst_self ts i t h]

theorem find?_missing (ts : List Task) (i : Nat) (h : ∀ t ∈ ts, t.id ≠ i) :
    ts.find? (fun t => t.id == i) = none :=
  List.find?_eq_none.mpr (fun t ht => by simpa using h t ht)

/-! ### Claims -/

/-- C1 counterexample: on the seed store, an update of existing task 1
whose request has a non-JSON content type is answered with 415
"Request must be JSON", not with a 200 response carrying the task, so a
body that fails to parse because of a non-JSON content type is NOT
treated as supplying no fields. (The store is still unchanged.) -/
theorem update_notJson_is_415 :
    (update_task tasks 1 Body.notJson).1
        = HResult.resp ⟨415, errObj "Request must be JSON"⟩ ∧
    (update_task tasks 1 Body.notJson).1
        ≠ HResult.resp ⟨200, Task.toJson ⟨1, "Купить молоко", false⟩⟩ ∧
    (update_task tasks 1 Body.notJson).2 = tasks := by
  refine ⟨rfl, ?_, rfl⟩
  intro hcontra
  have h415 : (update_task tasks 1 Body.notJson).1
      = HResult.resp ⟨415, errObj "Request must be JSON"⟩ := rfl
  rw [h415] at hcontra
  injection hcontra with hr
  simp at hr

/-- C1 (amended): for every task id present in the store, an update
request whose body has a JSON content type but fails to parse is treated
as supplying no fields: the update succeeds with 200, returns the task
unchanged, and the store is not mutated; an update request whose content
type is not JSON is instead rejected with 415, also leaving the store
unchanged. -/
theorem update_unparsable_body (ts : List Task) (i : Nat) (t : Task)
    (h : ts.find? (fun x => x.id == i) = some t) :
    update_task ts i .badJson = (.resp ⟨200, t.toJson⟩, ts) ∧
    update_task ts i .notJson =
      (.resp ⟨415, errObj "Request must be JSON"⟩, ts) :=
  ⟨update_badJson_eq ts i t h, update_notJson_eq ts i t h⟩

theorem update_unparsable_body_witness :
    update_task tasks 1 .badJson
        = (.resp ⟨200, Task.toJson ⟨1, "Купить молоко", false⟩⟩, tasks) ∧
    update_task tasks 1 .notJson
        = (.resp ⟨415, errObj "Request must be JSON"⟩, tasks) :=
  update_unparsable_body tasks 1 ⟨1, "Купить молоко", false⟩ rfl

/-- C6: for every task id not present in the store and every request body
(non-JSON content type, unparseable JSON, or any parsed JSON value),
update answers 404 "Задача не найдена" and leaves the store unchanged
(the existence check runs before the body is even looked at). -/
theorem update_missing_id_not_found (ts : List Task) (i : Nat) (body : Body)
    (h : ∀ t ∈ ts, t.id ≠ i) :
    update_task ts i body = (.resp ⟨404, errObj "Задача не найдена"⟩, ts) := by
  unfold update_task
  rw [find?_missing ts i h]

theorem update_missing_id_not_found_witness :
    update_task tasks 999 .notJson
      = (.resp ⟨404, errObj "Задача не найдена"⟩, tasks) :=
  update_missing_id_not_found tasks 999 .notJson (by decide)

/-- C2: a successful create appends a task whose id is `generate_id`,
`generate_id` is one greater than the maximum id in the store (1 on the
empty store); concretely, deleting both seed tasks makes the next id 1,
and deleting the highest-id seed task (id 2) makes a subsequent create
reuse id 2. -/
theorem create_id_is_max_plus_one (ts : List Task) (s : String)
    (hs : pyStrip s ≠ "") :
    (create_task ts (.json (.obj [("title", .str s)]))).2
        = ts ++ [⟨generate_id ts, pyStrip s, false⟩] ∧
    (ts = [] → generate_id ts = 1) ∧
    (ts ≠ [] → ∃ u ∈ ts, (∀ v ∈ ts, v.id ≤ u.id) ∧ generate_id ts = u.id + 1) ∧
    generate_id ((delete_task (delete_task tasks 1).2 2).2) = 1 ∧
    (create_task (delete_task tasks 2).2
        (.json (.obj [("title", .str "Clean")]))).2
      = (delete_task tasks 2).2 ++ [⟨2, "Clean", false⟩] := by
  refine ⟨?_, ?_, generate_id_max ts, rfl, rfl⟩
  · rw [create_obj_ok ts [("title", .str s)] s rfl hs]
  · intro h
    subst h
    rfl

theorem create_id_is_max_plus_one_witness :
    pyStrip " Clean " ≠ "" ∧
    (create_task tasks (.json (.obj [("title", .str " Clean ")]))).2
      = tasks ++ [⟨3, "Clean", false⟩] :=
  ⟨by decide, (create_id_is_max_plus_one tasks " Clean " (by decide)).1⟩

/-- C3: for every raw title that parses to a JSON string `s` which is
non-empty after stripping (supplied in any object body whose first
"title" field is `s`), create succeeds with 201 and appends to the end of
the store a task with the next generated id, title `pyStrip s`, and
`done = false`. -/
theorem create_valid_title (ts : List Task) (fs : List (String × Json))
    (s : String)
    (hfind : (fs.find? (fun p => p.1 == "title")).map Prod.snd
        = some (.str s))
    (hs : pyStrip s ≠ "") :
    create_task ts (.json (.obj fs)) =
      (.resp ⟨201, Task.toJson ⟨generate_id ts, pyStrip s, false⟩⟩,
        ts ++ [⟨generate_id ts, pyStrip s, false⟩]) :=
  create_obj_ok ts fs s hfind hs

theorem create_valid_title_witness :
    create_task tasks (.json (.obj [("title", .str " Clean ")]))
      = (.resp ⟨201, Task.toJson ⟨3, "Clean", false⟩⟩,
          tasks ++ [⟨3, "Clean", false⟩]) :=
  create_valid_title tasks [("title", .str " Clean ")] " Clean " rfl (by decide)

/-- C4: for every store and every parsed object body whose "title" field
is absent, not a JSON string, or a string that is blank after stripping,
create answers 400 "Title is required and must be non-empty string" and
returns the store unchanged (same list: same size, same tasks, same
order). -/
theorem create_invalid_title_rejected (ts : List Task)
    (fs : List (String × Json))
    (h : match (fs.find? (fun p => p.1 == "title")).map Prod.snd with
         | some (Json.str s) => pyStrip s = ""
         | none => True
         | some _ => True) :
    create_task ts (.json (.obj fs)) =
      (.resp ⟨400, errObj "Title is required and must be non-empty string"⟩,
        ts) :=
  create_obj_err ts fs h

theorem create_invalid_title_rejected_witness :
    create_task tasks (.json (.obj [("title", .num 123)]))
        = (.resp ⟨400, errObj "Title is required and must be non-empty string"⟩,
            tasks) ∧
    create_task tasks (.json (.obj [("title", .str " ")]))
        = (.resp ⟨400, errObj "Title is required and must be non-empty string"⟩,
            tasks) ∧
    create_task tasks (.json (.obj []))
        = (.resp ⟨400, errObj "Title is required and must be non-empty string"⟩,
            tasks) :=
  ⟨create_invalid_title_rejected tasks [("title", .num 123)] trivial,
    create_invalid_title_rejected tasks [("title", .str " ")] rfl,
    create_invalid_title_rejected tasks [] trivial⟩

/-- C5: for every task id present in the store and every parsed object
body, update applies exactly the partial update described by `titleAfter`
(a supplied title that is a string and non-empty after stripping replaces
the title, anything else is silently ignored) and `doneAfter` (a supplied
boolean replaces the done flag, anything else is silently ignored),
answers 200 with the updated task, keeps the task's id, and leaves every
other task in the store unchanged in its original position. -/
theorem update_partial_semantics (ts : List Task) (i : Nat) (t : Task)
    (fs : List (String × Json))
    (h : ts.find? (fun x => x.id == i) = some t) :
    ∃ l1 l2, ts = l1 ++ t :: l2 ∧ (∀ u ∈ l1, u.id ≠ i) ∧
      update_task ts i (.json (.obj fs))
        = (.resp ⟨200, Task.toJson ⟨t.id, titleAfter fs t, doneAfter fs t⟩⟩,
            l1 ++ ⟨t.id, titleAfter fs t, doneAfter fs t⟩ :: l2) := by
  obtain ⟨hpt, l1, l2, hts, hbefore⟩ := List.find?_eq_some.mp h
  refine ⟨l1, l2, hts, fun u hu => by simpa using hbefore u hu, ?_⟩
  rw [update_obj_eq ts i t fs h, hts,
    replaceFirst_append l1 t l2 i _ (fun u hu => by simpa using hbefore u hu) hpt]

theorem update_partial_semantics_witness :
    ∃ l1 l2, tasks = l1 ++ (⟨2, "Выучить Python", true⟩ : Task) :: l2 ∧
      (∀ u ∈ l1, u.id ≠ 2) ∧
      update_task tasks 2 (.json (.obj [("title", .str " X "), ("done", .num 1)]))
        = (.resp ⟨200, Task.toJson ⟨2,
              titleAfter [("title", .str " X "), ("done", .num 1)]
                ⟨2, "Выучить Python", true⟩,
              doneAfter [("title", .str " X "), ("done", .num 1)]
                ⟨2, "Выучить Python", true⟩⟩⟩,
            l1 ++ (⟨2,
              titleAfter [("title", .str " X "), ("done", .num 1)]
                ⟨2, "Выучить Python", true⟩,
              doneAfter [("title", .str " X "), ("done", .num 1)]
                ⟨2, "Выучить Python", true⟩⟩ : Task) :: l2) :=
  update_partial_semantics tasks 2 ⟨2, "Выучить Python", true⟩
    [("title", .str " X "), ("done", .num 1)] rfl

/-- C10: for every task id present in the store and every supplied title
string that is non-empty after stripping, update stores the stripped
value `pyStrip s` as the new title (not the raw string), leaving done and
id untouched. -/
theorem update_stores_trimmed_title (ts : List Task) (i : Nat) (t : Task)
    (s : String) (h : ts.find? (fun x => x.id == i) = some t)
    (hs : pyStrip s ≠ "") :
    ∃ l1 l2, ts = l1 ++ t :: l2 ∧
      update_task ts i (.json (.obj [("title", .str s)]))
        = (.resp ⟨200, Task.toJson ⟨t.id, pyStrip s, t.done⟩⟩,
            l1 ++ (⟨t.id, pyStrip s, t.done⟩ : Task) :: l2) := by
  obtain ⟨hpt, l1, l2, hts, hbefore⟩ := List.find?_eq_some.mp h
  refine ⟨l1, l2, hts, ?_⟩
  have ht0 : (([("title", Json.str s)].find?
      (fun p => p.1 == "title")).map Prod.snd) = some (.str s) := rfl
  have ht : titleAfter [("title", .str s)] t = pyStrip s := by
    unfold titleAfter
    rw [ht0]
    simp [hs]
  have hd : doneAfter [("title", .str s)] t = t.done := rfl
  rw [update_obj_eq ts i t [("title", .str s)] h, ht, hd, hts,
    replaceFirst_append l1 t l2 i _ (fun u hu => by simpa using hbefore u hu) hpt]

theorem update_stores_trimmed_title_witness :
    pyStrip " X " = "X" ∧ " X " ≠ "X" ∧
    (∃ l1 l2, tasks = l1 ++ (⟨1, "Купить молоко", false⟩ : Task) :: l2 ∧
      update_task tasks 1 (.json (.obj [("title", .str " X ")]))
        = (.resp ⟨200, Task.toJson ⟨1, pyStrip " X ", false⟩⟩,
            l1 ++ (⟨1, pyStrip " X ", false⟩ : Task) :: l2)) :=
  ⟨by decide, by decide,
    update_stores_trimmed_title tasks 1 ⟨1, "Купить молоко", false⟩ " X "
      rfl (by decide)⟩

theorem filter_ne_length (ts : List Task) (i : Nat)
    (hnd : (ts.map Task.id).Nodup) (hex : ∃ t ∈ ts, t.id = i) :
    (ts.filter (fun t => t.id != i)).length + 1 = ts.length := by
  induction ts with
  | nil =>
    obtain ⟨t, ht, _⟩ := hex
    cases ht
  | cons a l ih =>
    rw [List.map_cons] at hnd
    obtain ⟨hnotmem, hndl⟩ := List.nodup_cons.mp hnd
    by_cases ha : a.id = i
    · have hall : ∀ u ∈ l, u.id ≠ i := by
        intro u hu hui
        exact hnotmem (List.mem_map.mpr ⟨u, hu, by rw [hui, ha]⟩)
      have hfl : l.filter (fun t => t.id != i) = l :=
        List.filter_eq_self.mpr (fun u hu => bne_iff_ne.mpr (hall u hu))
      have hba : (a.id != i) = false := by
        simp [ha]
      simp [List.filter_cons, hba, hfl]
    · obtain ⟨t, ht, hti⟩ := hex
      rcases List.mem_cons.mp ht with rfl | htl
      · exact absurd hti ha
      · have hrec := ih hndl ⟨t, htl, hti⟩
        simp only [List.filter_cons, bne_iff_ne.mpr ha, if_pos, List.length_cons]
        omega

/-- C7: assuming the store invariant that ids are pairwise distinct, for
every task id: if a task with that id exists, delete answers 200 with a
confirmation message, removes exactly that task (the store shrinks by
one, is a sublist of the old store, and retains every task with a
different id), and a subsequent get of that id answers 404; if no task
with that id exists, delete answers 404 with the store unchanged, and get
answers 404 as well. -/
theorem delete_semantics (ts : List Task) (i : Nat)
    (hnd : (ts.map Task.id).Nodup) :
    ((∃ t ∈ ts, t.id = i) →
      (delete_task ts i).1 = ⟨200, msgObj "Задача удалена"⟩ ∧
      (delete_task ts i).2.length + 1 = ts.length ∧
      List.Sublist (delete_task ts i).2 ts ∧
      (∀ u ∈ ts, u.id ≠ i → u ∈ (delete_task ts i).2) ∧
      (∀ u ∈ (delete_task ts i).2, u.id ≠ i) ∧
      get_task (delete_task ts i).2 i = ⟨404, errObj "Задача не найдена"⟩) ∧
    ((∀ t ∈ ts, t.id ≠ i) →
      delete_task ts i = (⟨404, errObj "Задача не найдена"⟩, ts) ∧
      get_task ts i = ⟨404, errObj "Задача не найдена"⟩) := by
  constructor
  · intro hex
    have hlen := filter_ne_length ts i hnd hex
    have hne : ((ts.filter (fun t => t.id != i)).length == ts.length) = false :=
      beq_eq_false_iff_ne.mpr (by omega)
    have hdel : delete_task ts i
        = (⟨200, msgObj "Задача удалена"⟩, ts.filter (fun t => t.id != i)) := by
      simp only [delete_task, hne, Bool.false_eq_true, if_false]
    have hids : ∀ u ∈ ts.filter (fun t => t.id != i), u.id ≠ i :=
      fun u hu => bne_iff_ne.mp (List.mem_filter.mp hu).2
    rw [hdel]
    refine ⟨rfl, hlen, List.filter_sublist ts, ?_, hids, ?_⟩
    · intro u hu hune
      exact List.mem_filter.mpr ⟨hu, bne_iff_ne.mpr hune⟩
    · unfold get_task
      rw [find?_missing _ i hids]
  · intro hnone
    have hfl : ts.filter (fun t => t.id != i) = ts :=
      List.filter_eq_self.mpr (fun u hu => bne_iff_ne.mpr (hnone u hu))
    have heq : ((ts.filter (fun t => t.id != i)).length == ts.length) = true := by
      rw [hfl]
      exact beq_iff_eq.mpr rfl
    have hget : get_task ts i = ⟨404, errObj "Задача не найдена"⟩ := by
      unfold get_task
      rw [find?_missing ts i hnone]
    refine ⟨?_, hget⟩
    simp only [delete_task, heq, if_pos, hfl]
    simp

theorem delete_semantics_witness :
    (delete_task tasks 2).1 = ⟨200, msgObj "Задача удалена"⟩ ∧
    get_task (delete_task tasks 2).2 2 = ⟨404, errObj "Задача не найдена"⟩ ∧
    delete_task tasks 999 = (⟨404, errObj "Задача не найдена"⟩, tasks) := by
  have h2 := (delete_semantics tasks 2 (by decide)).1
    ⟨⟨2, "Выучить Python", true⟩, by decide, rfl⟩
  have h999 := (delete_semantics tasks 999 (by decide)).2 (by decide)
  exact ⟨h2.1, h2.2.2.2.2.2, h999.1⟩

/-- C8: get returns 200 with the first task carrying the requested id and
does not touch the store (it returns only a response), answers 404 when
no task has the id; and immediately after a successful create the newly
assigned id resolves to the created task. -/
theorem get_task_spec (ts : List Task) (i : Nat) :
    (∀ t, ts.find? (fun x => x.id == i) = some t →
      get_task ts i = ⟨200, t.toJson⟩) ∧
    ((∀ t ∈ ts, t.id ≠ i) →
      get_task ts i = ⟨404, errObj "Задача не найдена"⟩) ∧
    (∀ s, pyStrip s ≠ "" →
      get_task (create_task ts (.json (.obj [("title", .str s)]))).2
          (generate_id ts)
        = ⟨200, Task.toJson ⟨generate_id ts, pyStrip s, false⟩⟩) := by
  refine ⟨?_, ?_, ?_⟩
  · intro t h
    unfold get_task
    rw [h]
  · intro h
    unfold get_task
    rw [find?_missing ts i h]
  · intro s hs
    have hc := create_obj_ok ts [("title", .str s)] s rfl hs
    have hsnd : (create_task ts (.json (.obj [("title", .str s)]))).2
        = ts ++ [⟨generate_id ts, pyStrip s, false⟩] := by
      rw [hc]
    rw [hsnd]
    have hf1 : ts.find? (fun x => x.id == generate_id ts) = none :=
      find?_missing ts (generate_id ts)
        (fun t ht => Nat.ne_of_lt (generate_id_gt ts t ht))
    have hf2 : (ts ++ [(⟨generate_id ts, pyStrip s, false⟩ : Task)]).find?
        (fun x => x.id == generate_id ts)
        = some ⟨generate_id ts, pyStrip s, false⟩ := by
      rw [List.find?_append, hf1]
      simp [List.find?_cons]
    unfold get_task
    rw [hf2]

theorem get_task_spec_witness :
    get_task tasks 1
        = ⟨200, Task.toJson ⟨1, "Купить молоко", false⟩⟩ ∧
    get_task tasks 999 = ⟨404, errObj "Задача не найдена"⟩ ∧
    get_task (create_task tasks (.json (.obj [("title", .str "Clean")]))).2 3
      = ⟨200, Task.toJson ⟨3, "Clean", false⟩⟩ := by
  have h := get_task_spec tasks 1
  have h999 := (get_task_spec tasks 999).2.1 (by decide)
  have hcr := (get_task_spec tasks 3).2.2 "Clean" (by decide)
  exact ⟨h.1 ⟨1, "Купить молоко", false⟩ rfl, h999, hcr⟩

theorem applyTitle_spec (data : Json) (t t1 : Task)
    (h : applyTitle data t = some t1) :
    t1.id = t.id ∧ t1.done = t.done ∧
      (t1.title = t.title ∨ ∃ s, pyStrip s ≠ "" ∧ t1.title = pyStrip s) := by
  unfold applyTitle at h
  cases hk : data.hasKey "title" with
  | none =>
    rw [hk] at h
    cases h
  | some b =>
    rw [hk] at h
    cases b with
    | false =>
      simp at h
      subst h
      exact ⟨rfl, rfl, Or.inl rfl⟩
    | true =>
      cases hi : data.item "title" with
      | none =>
        rw [hi] at h
        simp at h
      | some v =>
        rw [hi] at h
        cases v with
        | str s =>
          by_cases hps : pyStrip s = ""
          · simp [hps] at h
            subst h
            exact ⟨rfl, rfl, Or.inl rfl⟩
          · simp [hps] at h
            subst h
            exact ⟨rfl, rfl, Or.inr ⟨s, hps, rfl⟩⟩
        | null =>
          simp at h
          subst h
          exact ⟨rfl, rfl, Or.inl rfl⟩
        | bool b2 =>
          simp at h
          subst h
          exact ⟨rfl, rfl, Or.inl rfl⟩
        | num n =>
          simp at h
          subst h
          exact ⟨rfl, rfl, Or.inl rfl⟩
        | arr xs =>
          simp at h
          subst h
          exact ⟨rfl, rfl, Or.inl rfl⟩
        | obj gs =>
          simp at h
          subst h
          exact ⟨rfl, rfl, Or.inl rfl⟩

theorem applyDone_spec (data : Json) (t t2 : Task)
    (h : applyDone data t = some t2) :
    t2.id = t.id ∧ t2.title = t.title := by
  unfold applyDone at h
  cases hk : data.hasKey "done" with
  | none =>
    rw [hk] at h
    cases h
  | some b =>
    rw [hk] at h
    cases b with
    | false =>
      simp at h
      subst h
      exact ⟨rfl, rfl⟩
    | true =>
      cases hi : data.item "done" with
      | none =>
        rw [hi] at h
        simp at h
      | some v =>
        rw [hi] at h
        cases v with
        | bool b2 =>
          simp at h
          subst h
          exact ⟨rfl, rfl⟩
        | null =>
          simp at h
          subst h
          exact ⟨rfl, rfl⟩
        | str s =>
          simp at h
          subst h
          exact ⟨rfl, rfl⟩
        | num n =>
          simp at h
          subst h
          exact ⟨rfl, rfl⟩
        | arr xs =>
          simp at h
          subst h
          exact ⟨rfl, rfl⟩
        | obj gs =>
          simp at h
          subst h
          exact ⟨rfl, rfl⟩

theorem create_cases (ts : List Task) (b : Body) :
    (create_task ts b).2 = ts ∨
      ∃ s, pyStrip s ≠ "" ∧
        (create_task ts b).2 = ts ++ [⟨generate_id ts, pyStrip s, false⟩] := by
  cases b with
  | notJson => exact Or.inl rfl
  | badJson => exact Or.inl rfl
  | json v =>
    cases hti : titleOfData (parsedOrEmpty (.json v)) with
    | none =>
      left
      simp only [create_task]
      rw [hti]
    | some e =>
      cases e with
      | error u =>
        cases u
        left
        simp only [create_task]
        rw [hti]
      | ok s =>
        right
        refine ⟨s, titleOfData_ok_strip _ s hti, ?_⟩
        simp only [create_task]
        rw [hti]

theorem update_cases (ts : List Task) (i : Nat) (b : Body) :
    (update_task ts i b).2 = ts ∨
      ∃ t t2 l1 l2, ts = l1 ++ t :: l2 ∧
        (update_task ts i b).2 = l1 ++ t2 :: l2 ∧ t2.id = t.id ∧
        (t2.title = t.title ∨ ∃ c ∈ t2.title.data, c.isWhitespace = false) := by
  cases hf : ts.find? (fun x => x.id == i) with
  | none =>
    left
    unfold update_task
    rw [hf]
  | some t =>
    cases b with
    | notJson =>
      left
      rw [update_notJson_eq ts i t hf]
    | badJson =>
      left
      rw [update_badJson_eq ts i t hf]
    | json v =>
      unfold update_task
      rw [hf]
      cases hat : applyTitle (parsedOrEmpty (.json v)) t with
      | none =>
        left
        simp only [hat]
      | some t1 =>
        cases had : applyDone (parsedOrEmpty (.json v)) t1 with
        | none =>
          left
          simp only [hat, had]
        | some t2 =>
          simp only [hat, had]
          right
          obtain ⟨hpt, l1, l2, hts, hbefore⟩ := List.find?_eq_some.mp hf
          obtain ⟨hid1, hdone1, htl1⟩ := applyTitle_spec _ t t1 hat
          obtain ⟨hid2, htl2⟩ := applyDone_spec _ t1 t2 had
          refine ⟨t, t2, l1, l2, hts, ?_, by rw [hid2, hid1], ?_⟩
          · rw [hts, replaceFirst_append l1 t l2 i t2
              (fun u hu => by simpa using hbefore u hu) hpt]
          · rcases htl1 with he | ⟨s, hs, he⟩
            · exact Or.inl (by rw [htl2, he])
            · refine Or.inr ?_
              rw [htl2, he]
              exact pyStrip_has_nonws s hs

theorem delete_snd (ts : List Task) (i : Nat) :
    (delete_task ts i).2 = ts.filter (fun t => t.id != i) := by
  simp only [delete_task]
  split <;> rfl

theorem inv_applyOp (ts : List Task) (op : Op) (h : Inv ts) :
    Inv (applyOp ts op) := by
  obtain ⟨hnd, hti⟩ := h
  cases op with
  | list => exact ⟨hnd, hti⟩
  | get i => exact ⟨hnd, hti⟩
  | create b =>
    rcases create_cases ts b with hc | ⟨s, hs, hc⟩
    · simp only [applyOp]
      rw [hc]
      exact ⟨hnd, hti⟩
    · simp only [applyOp]
      rw [hc]
      constructor
      · rw [List.map_append, List.nodup_append]
        refine ⟨hnd, List.nodup_singleton _, ?_⟩
        intro a ha hb
        obtain ⟨u, hu, hua⟩ := List.mem_map.mp ha
        have hb2 : a = generate_id ts := by simpa using hb
        have := generate_id_gt ts u hu
        omega
      · intro u hu
        rcases List.mem_append.mp hu with h1 | h2
        · exact hti u h1
        · have hu2 : u = ⟨generate_id ts, pyStrip s, false⟩ := by simpa using h2
          subst hu2
          exact pyStrip_has_nonws s hs
  | update i b =>
    rcases update_cases ts i b with hc | ⟨t, t2, l1, l2, hts, hc, hid, htl⟩
    · simp only [applyOp]
      rw [hc]
      exact ⟨hnd, hti⟩
    · simp only [applyOp]
      rw [hc]
      constructor
      · have hmap : (l1 ++ t2 :: l2).map Task.id
            = (l1 ++ t :: l2).map Task.id := by
          simp [hid]
        rw [hmap, ← hts]
        exact hnd
      · intro u hu
        rcases List.mem_append.mp hu with h1 | h2
        · exact hti u (hts.symm ▸ List.mem_append.mpr (Or.inl h1))
        · rcases List.mem_cons.mp h2 with rfl | h3
          · rcases htl with he | hw
            · have htmem : t ∈ ts :=
                hts.symm ▸ List.mem_append.mpr (Or.inr (List.mem_cons_self t l2))
              rw [he]
              exact hti t htmem
            · exact hw
          · exact hti u
              (hts.symm ▸ List.mem_append.mpr (Or.inr (List.mem_cons_of_mem t h3)))
  | delete i =>
    constructor
    · simp only [applyOp]
      rw [delete_snd]
      exact List.Nodup.sublist
        (List.Sublist.map Task.id (List.filter_sublist ts)) hnd
    · intro u hu
      simp only [applyOp] at hu
      rw [delete_snd] at hu
      exact hti u (List.mem_filter.mp hu).1

theorem inv_runOps (ts : List Task) (h : Inv ts) (ops : List Op) :
    Inv (runOps ts ops) := by
  induction ops generalizing ts with
  | nil => exact h
  | cons op rest ih => exact ih (applyOp ts op) (inv_applyOp ts op h)

/-- C9: starting from the seeded store, after any sequence of list, get,
create, update, and delete requests, all ids in the store are pairwise
distinct and every stored title contains a non-whitespace character
(i.e. no stored title is empty or whitespace-only). -/
theorem seeded_store_invariants (ops : List Op) :
    ((runOps tasks ops).map Task.id).Nodup ∧
      ∀ t ∈ runOps tasks ops, ∃ c ∈ t.title.data, c.isWhitespace = false :=
  inv_runOps tasks ⟨by decide, by decide⟩ ops

theorem seeded_store_invariants_witness :
    ((runOps tasks [.delete 2, .create (.json (.obj [("title", .str " A ")])),
        .update 1 (.json (.obj [("done", .bool true)]))]).map Task.id).Nodup ∧
      ∀ t ∈ runOps tasks [.delete 2,
          .create (.json (.obj [("title", .str " A ")])),
          .update 1 (.json (.obj [("done", .bool true)]))],
        ∃ c ∈ t.title.data, c.isWhitespace = false :=
  seeded_store_invariants [.delete 2,
    .create (.json (.obj [("title", .str " A ")])),
    .update 1 (.json (.obj [("done", .bool true)]))]

end App
